import Mathlib

/-!
Verification of the OPEX/CAPEX requisition approval workflow of
`src/hr_app.py` (Polaris HR portal).

The embedding below translates the workflow-relevant parts of the source:

* the module-level constants `APPROVAL_CHAIN` and `EXPENSE_LINES_BUDGET`;
* the helper `get_approver_name_by_criteria`;
* the submission branch of `request_opex_capex` (lines 1253-1304), as `submit`;
* the approve/reject branches of `admin_manage_opex_capex_approvals`
  (lines 1347-1475), as `decide` / `applyDecision`;
* the pending-approvals query (lines 1356-1372), as `pendingForApprover`.

Modelling conventions:
* Python floats are modelled as exact rationals (ℚ).
* The Streamlit UI surfaces failures by not listing a request (or by an
  error/warning message and an early `return` before `save_data`); the
  embedding names each failing condition with an explicit error value.
  The set of inputs that successfully mutate the store, and the state they
  produce, are exactly those of the source.
* `request_id`s are uuid4 strings, assumed unique per store; the source
  picks the first list element with a matching id, and so does the model.
* `datetime.now().isoformat()` is passed in as an opaque string parameter.
-/

deriving instance DecidableEq for Except

namespace PolarisHR

/-- One entry of the module constant `APPROVAL_CHAIN` (hr_app.py lines 58-63):
a stage of the approval route, bound to a department and grade level. -/
structure StageSpec where
  role_name : String
  department : String
  grade_level : String
deriving DecidableEq, Repr

/-- hr_app.py lines 58-63: the fixed four-stage approval chain. -/
def APPROVAL_CHAIN : List StageSpec :=
  [ { role_name := "Admin Manager", department := "Administration", grade_level := "Manager" },
    { role_name := "HR Manager", department := "HR", grade_level := "Manager" },
    { role_name := "Finance Manager", department := "Finance", grade_level := "Manager" },
    { role_name := "MD", department := "Executive", grade_level := "MD" } ]

/-- hr_app.py lines 66-81: expense line → budgeted amount. -/
def EXPENSE_LINES_BUDGET : List (String × ℚ) :=
  [ ("Office Repairs and Maintenance", 1000000),
    ("Equipment Maintenance", 500000),
    ("Regulatory Maintenance", 750000),
    ("Electricity", 6000000),
    ("Cleaning & Pest Control", 2500000),
    ("Fleet Management", 5000000),
    ("Subscriptions", 1000000),
    ("Rent", 2500000),
    ("Fuel and Lubrication", 4500000),
    ("Plant & Machinery Maintenance", 450000),
    ("Printing & Stationeries", 1200000),
    ("Insurance", 7500000),
    ("Internet Subscription", 2500000),
    ("IT Equipment Maintenance", 5000000) ]

/-- `EXPENSE_LINES_BUDGET.get(expense_line, 0.0)` (hr_app.py line 1258). -/
def lookupBudget (line : String) : ℚ :=
  match EXPENSE_LINES_BUDGET.lookup line with
  | some b => b
  | none => 0

/-- The `profile` sub-record of a user (users.json schema). -/
structure UserProfile where
  staff_id : String
  name : String
  department : String
  grade_level : String
deriving DecidableEq, Repr

/-- A user record: the account `role` string ("staff" or "admin" — the
portal's superuser flag, line 410) plus the profile. -/
structure User where
  role : String
  profile : UserProfile
deriving DecidableEq, Repr

/-- hr_app.py lines 84-89: first user whose profile matches the
(department, grade_level) pair, returning the profile name. -/
def get_approver_name_by_criteria (users : List User)
    (department grade_level : String) : Option String :=
  (users.find? fun u =>
    u.profile.department == department && u.profile.grade_level == grade_level).map
    (fun u => u.profile.name)

/-- One element of `approval_history` (hr_app.py lines 1440-1446 / 1464-1470). -/
structure HistoryEntry where
  approver_role : String
  approver_name : String
  date : String
  status : String
  comment : String
deriving DecidableEq, Repr

/-- The `new_request` record built at hr_app.py lines 1273-1300. -/
structure Requisition where
  request_id : String
  requester_staff_id : String
  requester_name : String
  requester_department : String
  request_type : String
  item_description : String
  expense_line : String
  budgeted_amount : ℚ
  material_cost : ℚ
  labor_cost : ℚ
  total_amount : ℚ
  wht_percentage : ℚ
  wht_amount : ℚ
  net_amount_payable : ℚ
  budget_balance : ℚ
  justification : String
  vendor_name : String
  vendor_account_name : String
  vendor_account_no : String
  vendor_bank : String
  document_path : Option String
  submission_date : String
  current_approver_role : String
  current_approval_stage : Nat
  final_status : String
  approval_history : List HistoryEntry
deriving DecidableEq, Repr

/-- The submission-form inputs of `request_opex_capex` (lines 1239-1248). -/
structure SubmitInput where
  request_type : String
  item_description : String
  expense_line : String
  material_cost : ℚ
  labor_cost : ℚ
  justification : String
  vendor_name : String
  vendor_account_name : String
  vendor_account_no : String
  vendor_bank : String
deriving DecidableEq, Repr

/-- Failure modes of the submission branch:
`IndexOutOfRange` models the Python `IndexError` raised by
`APPROVAL_CHAIN[0]` on an empty chain (line 1262); `NoEligibleApprover`
models the `st.error` + early `return` at lines 1267-1269 when no user
matches the first stage (or the matched name is falsy). -/
inductive SubmitError where
  | IndexOutOfRange
  | NoEligibleApprover
deriving DecidableEq, Repr

/-- hr_app.py lines 1253-1300 (the `if submitted:` branch of
`request_opex_capex`): computes the derived financial fields exactly as the
source does — note line 1256 applies the WHT rate to `total_amount`, and
line 1259 subtracts `total_amount` (not net) from the budget — resolves the
first-stage approver, and builds the `new_request` record. The chain is a
parameter so the behaviour on alternative chains can be stated; every call
in the source uses the module constant `APPROVAL_CHAIN`. -/
def submit (chain : List StageSpec) (users : List User) (requester : UserProfile)
    (inp : SubmitInput) (rid now : String) (doc_path : Option String) :
    Except SubmitError Requisition :=
  let total_amount := inp.material_cost + inp.labor_cost
  let wht_percentage : ℚ := 5 / 100
  let wht_amount := total_amount * wht_percentage
  let net_amount_payable := total_amount - wht_amount
  let budgeted_amount := lookupBudget inp.expense_line
  let budget_balance := budgeted_amount - total_amount
  match chain[0]? with
  | none => Except.error SubmitError.IndexOutOfRange
  | some first =>
    match get_approver_name_by_criteria users first.department first.grade_level with
    | none => Except.error SubmitError.NoEligibleApprover
    | some nm =>
      if nm = "" then Except.error SubmitError.NoEligibleApprover
      else Except.ok
        { request_id := rid
          requester_staff_id := requester.staff_id
          requester_name := requester.name
          requester_department := requester.department
          request_type := inp.request_type
          item_description := inp.item_description
          expense_line := inp.expense_line
          budgeted_amount := budgeted_amount
          material_cost := inp.material_cost
          labor_cost := inp.labor_cost
          total_amount := total_amount
          wht_percentage := wht_percentage
          wht_amount := wht_amount
          net_amount_payable := net_amount_payable
          budget_balance := budget_balance
          justification := inp.justification
          vendor_name := inp.vendor_name
          vendor_account_name := inp.vendor_account_name
          vendor_account_no := inp.vendor_account_no
          vendor_bank := inp.vendor_bank
          document_path := doc_path
          submission_date := now
          current_approver_role := first.role_name
          current_approval_stage := 0
          final_status := "Pending"
          approval_history := [] }

/-- The store-level effect of the submission branch: on success the record
is appended and the list saved (lines 1301-1302); on failure the function
returns before `save_data`, leaving the persisted list unchanged. -/
def submitStore (chain : List StageSpec) (users : List User)
    (store : List Requisition) (requester : UserProfile) (inp : SubmitInput)
    (rid now : String) (doc_path : Option String) : List Requisition :=
  match submit chain users requester inp rid now doc_path with
  | Except.ok r => store ++ [r]
  | Except.error _ => store

/-- The two buttons of the review form (hr_app.py lines 1439 and 1463). -/
inductive Decision where
  | Approve
  | Reject
deriving DecidableEq, Repr

/-- The `status` string written into the history entry
(lines 1444 and 1468). -/
def decisionStatus : Decision → String
  | Decision.Approve => "Approved"
  | Decision.Reject => "Rejected"

/-- Failure modes of a decision attempt. The source surfaces all of them by
exclusion from the `pending_for_this_approver` list (lines 1357-1376): a
user matching no chain stage gets the warning at line 1365, a finalized or
role-mismatched request is filtered out at lines 1369-1372 and can never be
selected. The error value names the condition responsible; no failing path
reaches `save_data`, so the store is untouched on every error. -/
inductive DecideError where
  | NotFound
  | AlreadyFinalized
  | Unauthorized
deriving DecidableEq, Repr

/-- hr_app.py lines 1357-1362: the acting user's role in the approval
chain — the `role_name` of the first chain entry whose department and
grade level both equal the user's profile. -/
def chainRoleOf (chain : List StageSpec) (u : User) : Option String :=
  (chain.find? fun s =>
    s.department == u.profile.department && s.grade_level == u.profile.grade_level).map
    StageSpec.role_name

/-- First record with the given `request_id`
(`next(req for req in ... if req['request_id'] == ...)`). -/
def recordOf (store : List Requisition) (rid : String) : Option Requisition :=
  store.find? fun x => x.request_id == rid

/-- Replace the first element satisfying `p` by its image under `f`,
leaving the rest unchanged — the in-place mutation of `selected_request`
inside the loaded list, followed by `save_data` of the whole list. -/
def updateFirst (p : Requisition → Bool) (f : Requisition → Requisition) :
    List Requisition → List Requisition
  | [] => []
  | x :: xs => if p x then f x :: xs else x :: updateFirst p f xs

/-- hr_app.py lines 1439-1475: the successful mutation applied to the
selected request. Both buttons append one history entry (lines 1440-1446,
1464-1470). Approve then either advances `current_approval_stage` and
`current_approver_role` together when `next_stage_index < len(APPROVAL_CHAIN)`
(lines 1448-1452), or finalizes with status `Approved` and routing role
`Final Approval` (lines 1455-1456). Reject finalizes with status `Rejected`
and routing role `Rejected` (lines 1471-1472). -/
def applyDecision (chain : List StageSpec) (role approver_name : String)
    (d : Decision) (cm now : String) (r : Requisition) : Requisition :=
  let entry : HistoryEntry :=
    { approver_role := role, approver_name := approver_name, date := now,
      status := decisionStatus d, comment := cm }
  let r1 := { r with approval_history := r.approval_history ++ [entry] }
  match d with
  | Decision.Reject =>
      { r1 with final_status := "Rejected", current_approver_role := "Rejected" }
  | Decision.Approve =>
      match chain[r.current_approval_stage + 1]? with
      | some nextInfo =>
          { r1 with current_approver_role := nextInfo.role_name,
                    current_approval_stage := r.current_approval_stage + 1 }
      | none =>
          { r1 with final_status := "Approved",
                    current_approver_role := "Final Approval" }

/-- The decision operation of `admin_manage_opex_capex_approvals`: a request
can be acted on iff it exists, its `final_status` is `"Pending"`, and its
`current_approver_role` equals the acting user's (non-empty) chain role
(the conjunction filtered at lines 1369-1372, with the user's role resolved
at lines 1357-1366 — the account-level `role == "admin"` flag plays no part
here, it only gates page navigation). On success the record is replaced by
`applyDecision` and the list saved. -/
def decide (chain : List StageSpec) (store : List Requisition) (u : User)
    (rid : String) (d : Decision) (cm now : String) :
    Except DecideError (List Requisition) :=
  match recordOf store rid with
  | none => Except.error DecideError.NotFound
  | some r =>
    if r.final_status = "Pending" then
      match chainRoleOf chain u with
      | none => Except.error DecideError.Unauthorized
      | some role =>
        if role ≠ "" ∧ r.current_approver_role = role then
          Except.ok (updateFirst (fun x => x.request_id == rid)
            (applyDecision chain role u.profile.name d cm now) store)
        else Except.error DecideError.Unauthorized
    else Except.error DecideError.AlreadyFinalized

/-- The persisted store after a decision attempt: `save_data` runs only in
the success branches, so a failing attempt leaves the store as it was. -/
def decideStore (chain : List StageSpec) (store : List Requisition) (u : User)
    (rid : String) (d : Decision) (cm now : String) : List Requisition :=
  match decide chain store u rid d cm now with
  | Except.ok s => s
  | Except.error _ => store

/-- hr_app.py lines 1357-1372: the pending-approvals query — the requests
listed for a given user, selected by comparing the denormalized
`current_approver_role` string with the user's chain role (never by stage
index), among non-finalized requests. -/
def pendingForApprover (chain : List StageSpec) (store : List Requisition)
    (u : User) : List Requisition :=
  match chainRoleOf chain u with
  | none => []
  | some role =>
    if role = "" then []
    else store.filter fun r =>
      r.current_approver_role == role && r.final_status == "Pending"

/-- One invocation of the decision form. -/
structure DecideEvent where
  user : User
  rid : String
  decision : Decision
  comment : String
  date : String
deriving DecidableEq, Repr

/-- The store after one decision attempt against the module chain. -/
def stepStore (store : List Requisition) (e : DecideEvent) : List Requisition :=
  decideStore APPROVAL_CHAIN store e.user e.rid e.decision e.comment e.date

/-- The store after a sequence of decision attempts. -/
def runEvents : List Requisition → List DecideEvent → List Requisition
  | store, [] => store
  | store, e :: es => runEvents (stepStore store e) es

/-- Whether a decision attempt succeeds on the given store. -/
def decideOk (store : List Requisition) (e : DecideEvent) : Bool :=
  match decide APPROVAL_CHAIN store e.user e.rid e.decision e.comment e.date with
  | Except.ok _ => true
  | Except.error _ => false

/-- Number of successful decision events targeting record `rid` along a run. -/
def countSuccessesFor (rid : String) : List Requisition → List DecideEvent → Nat
  | _, [] => 0
  | store, e :: es =>
      (if decideOk store e && e.rid == rid then 1 else 0) +
        countSuccessesFor rid (stepStore store e) es

/-- The per-entry audit property: the `i`-th history entry was recorded by
the chain role of stage `i` (the stage that was current when that decision
was made, since the stage index starts at 0 and advances by exactly one per
recorded decision). -/
def histRolesOk (r : Requisition) : Prop :=
  ∀ i : Fin r.approval_history.length,
    (APPROVAL_CHAIN[i.val]?).map StageSpec.role_name =
      some (r.approval_history.get i).approver_role

/-- Reachability invariant of a requisition record: while pending, the
denormalized routing role and the stage index agree with the chain and the
stage index counts the recorded decisions; finalization writes the two
sentinel routing strings; the history audit holds. Freshly submitted
records satisfy it and `decide` preserves it. -/
def Inv (r : Requisition) : Prop :=
  (r.final_status = "Pending" →
      r.current_approval_stage = r.approval_history.length ∧
      (APPROVAL_CHAIN[r.current_approval_stage]?).map StageSpec.role_name =
        some r.current_approver_role) ∧
  histRolesOk r ∧
  (r.final_status = "Approved" → r.current_approver_role = "Final Approval") ∧
  (r.final_status = "Rejected" → r.current_approver_role = "Rejected")

instance (r : Requisition) : Decidable (histRolesOk r) := by
  unfold histRolesOk; infer_instance

instance (r : Requisition) : Decidable (Inv r) := by
  unfold Inv; infer_instance

/-! Concrete fixtures used by witnesses and counterexamples. -/

/-- A staff user matching stage 0 (Administration / Manager). -/
def adminMgrUser : User :=
  { role := "staff",
    profile := { staff_id := "PD004", name := "Fatima Bello",
                 department := "Administration", grade_level := "Manager" } }

/-- A staff user matching stage 1 (HR / Manager). -/
def hrMgrUser : User :=
  { role := "staff",
    profile := { staff_id := "PD002", name := "Ngozi Okoro",
                 department := "HR", grade_level := "Manager" } }

/-- A staff user matching stage 2 (Finance / Manager). -/
def finMgrUser : User :=
  { role := "staff",
    profile := { staff_id := "PD003", name := "Tunde Ajayi",
                 department := "Finance", grade_level := "Manager" } }

/-- A staff user matching stage 3 (Executive / MD). -/
def mdUser : User :=
  { role := "staff",
    profile := { staff_id := "PD005", name := "Abdul Bolaji",
                 department := "Executive", grade_level := "MD" } }

/-- An account with the portal's superuser flag (`role = "admin"`) whose
profile matches no stage of the approval chain. -/
def adminOutsider : User :=
  { role := "admin",
    profile := { staff_id := "PD099", name := "Root Account",
                 department := "Marketing", grade_level := "Officer" } }

/-- A user directory holding one approver per stage. -/
def demoUsers : List User := [adminMgrUser, hrMgrUser, finMgrUser, mdUser]

/-- The requester of the demo submission. -/
def demoRequester : UserProfile :=
  { staff_id := "PD001", name := "Ada Obi", department := "IT", grade_level := "Officer" }

/-- Form inputs of the demo submission: material 100000, labor 50000,
expense line "Rent". -/
def demoInput : SubmitInput :=
  { request_type := "OPEX (Operational Expenditure)",
    item_description := "Generator servicing",
    expense_line := "Rent",
    material_cost := 100000,
    labor_cost := 50000,
    justification := "Quarterly maintenance",
    vendor_name := "PowerFix Ltd",
    vendor_account_name := "PowerFix Ltd",
    vendor_account_no := "0123456789",
    vendor_bank := "GTB" }

/-- The record that `submit` produces from `demoInput` (checked by `rfl`
in `submit_demo` below): total 150000, WHT 7500 (5% of the total, material
included), net 142500, budget balance 2500000 − 150000. -/
def demoReq : Requisition :=
  { request_id := "R1"
    requester_staff_id := "PD001"
    requester_name := "Ada Obi"
    requester_department := "IT"
    request_type := "OPEX (Operational Expenditure)"
    item_description := "Generator servicing"
    expense_line := "Rent"
    budgeted_amount := 2500000
    material_cost := 100000
    labor_cost := 50000
    total_amount := 150000
    wht_percentage := 5 / 100
    wht_amount := 7500
    net_amount_payable := 142500
    budget_balance := 2350000
    justification := "Quarterly maintenance"
    vendor_name := "PowerFix Ltd"
    vendor_account_name := "PowerFix Ltd"
    vendor_account_no := "0123456789"
    vendor_bank := "GTB"
    document_path := none
    submission_date := "2025-01-06T09:00:00"
    current_approver_role := "Admin Manager"
    current_approval_stage := 0
    final_status := "Pending"
    approval_history := [] }

/-- Sanity check: the demo submission succeeds and equals `demoReq`. -/
theorem submit_demo :
    submit APPROVAL_CHAIN demoUsers demoRequester demoInput "R1"
      "2025-01-06T09:00:00" none = Except.ok demoReq := by
  have hb : lookupBudget "Rent" = 2500000 := rfl
  norm_num [submit, get_approver_name_by_criteria, APPROVAL_CHAIN, demoUsers,
    adminMgrUser, hrMgrUser, finMgrUser, mdUser, demoInput, demoRequester,
    demoReq, List.find?, hb]
  exact fun h => absurd h (by decide)

/-- A copy of the demo record already finalized as `Approved`. -/
def demoReqApproved : Requisition :=
  { demoReq with final_status := "Approved", current_approver_role := "Final Approval" }

/-! Helper lemmas about the decision operation. -/

/-- The decision mutation never touches `request_id`. -/
lemma applyDecision_request_id (chain : List StageSpec) (role nm : String)
    (d : Decision) (cm now : String) (r : Requisition) :
    (applyDecision chain role nm d cm now r).request_id = r.request_id := by
  cases d <;> simp only [applyDecision]
  split <;> rfl

/-- The decision mutation appends exactly one history entry. -/
lemma applyDecision_history (chain : List StageSpec) (role nm : String)
    (d : Decision) (cm now : String) (r : Requisition) :
    (applyDecision chain role nm d cm now r).approval_history =
      r.approval_history ++
        [{ approver_role := role, approver_name := nm, date := now,
           status := decisionStatus d, comment := cm }] := by
  cases d <;> simp only [applyDecision]
  split <;> rfl

/-- Everything a successful decision implies: the record exists, was
pending, the user's chain role is non-empty and equals the record's routing
role, and the new store replaces that record by `applyDecision`. -/
lemma decide_ok_elim {chain : List StageSpec} {store : List Requisition}
    {u : User} {rid : String} {d : Decision} {cm now : String}
    {s : List Requisition}
    (h : decide chain store u rid d cm now = Except.ok s) :
    ∃ r role, recordOf store rid = some r ∧ r.final_status = "Pending" ∧
      chainRoleOf chain u = some role ∧ role ≠ "" ∧
      r.current_approver_role = role ∧
      s = updateFirst (fun x => x.request_id == rid)
            (applyDecision chain role u.profile.name d cm now) store := by
  unfold decide at h
  cases hr : recordOf store rid with
  | none => rw [hr] at h; exact absurd h (by simp)
  | some r =>
    rw [hr] at h
    dsimp only at h
    by_cases hp : r.final_status = "Pending"
    · rw [if_pos hp] at h
      cases hrole : chainRoleOf chain u with
      | none => rw [hrole] at h; exact absurd h (by simp)
      | some role =>
        rw [hrole] at h
        dsimp only at h
        by_cases hg : role ≠ "" ∧ r.current_approver_role = role
        · rw [if_pos hg] at h
          refine ⟨r, role, rfl, hp, rfl, hg.1, hg.2, ?_⟩
          exact (Except.ok.injEq _ _).mp h.symm
        · rw [if_neg hg] at h; exact absurd h (by simp)
    · rw [if_neg hp] at h; exact absurd h (by simp)

/-- Looking up `rid` after updating the record holding `rid` finds the
updated record (the update preserves ids). -/
lemma recordOf_updateFirst_same (f : Requisition → Requisition)
    (hf : ∀ y, (f y).request_id = y.request_id)
    (store : List Requisition) (rid : String) (r : Requisition)
    (hr : recordOf store rid = some r) :
    recordOf (updateFirst (fun x => x.request_id == rid) f store) rid =
      some (f r) := by
  induction store with
  | nil => simp [recordOf, List.find?] at hr
  | cons x xs ih =>
    by_cases hx : x.request_id == rid
    · have hxr : x = r := by
        simpa [recordOf, List.find?, hx] using hr
      subst hxr
      simp [updateFirst, hx, recordOf, List.find?, hf]
    · have hr' : recordOf xs rid = some r := by
        simpa [recordOf, List.find?, hx] using hr
      simpa [updateFirst, hx, recordOf, List.find?] using ih hr'

/-- Updating the record holding a different id does not change the lookup. -/
lemma recordOf_updateFirst_other (f : Requisition → Requisition)
    (hf : ∀ y, (f y).request_id = y.request_id)
    (store : List Requisition) (rid rid' : String) (hne : rid' ≠ rid) :
    recordOf (updateFirst (fun x => x.request_id == rid') f store) rid =
      recordOf store rid := by
  induction store with
  | nil => rfl
  | cons x xs ih =>
    by_cases hx : x.request_id == rid'
    · have hxid : x.request_id = rid' := by simpa using hx
      have hnot : ((f x).request_id == rid) = false := by
        simp [hf, hxid]; exact hne
      have hnot' : (x.request_id == rid) = false := by
        simp [hxid]; exact hne
      simp [updateFirst, hx, recordOf, List.find?, hnot, hnot']
    · by_cases hxx : x.request_id == rid
      · simp [updateFirst, hx, recordOf, List.find?, hxx]
      · simpa [updateFirst, hx, recordOf, List.find?, hxx] using ih

/-- Every element of an updated store is an original element or the image
of the (first-match) found element. -/
lemma mem_updateFirst (p : Requisition → Bool) (f : Requisition → Requisition)
    (l : List Requisition) (x : Requisition) (hx : x ∈ updateFirst p f l) :
    x ∈ l ∨ ∃ y, l.find? p = some y ∧ x = f y := by
  induction l with
  | nil => simp [updateFirst] at hx
  | cons z zs ih =>
    by_cases hz : p z
    · rw [updateFirst, if_pos hz] at hx
      rcases List.mem_cons.mp hx with hh | ht
      · exact Or.inr ⟨z, by simp [List.find?, hz], hh⟩
      · exact Or.inl (List.mem_cons_of_mem _ ht)
    · rw [updateFirst, if_neg hz] at hx
      rcases List.mem_cons.mp hx with hh | ht
      · exact Or.inl (hh ▸ List.mem_cons_self _ _)
      · rcases ih ht with h1 | ⟨y, hy, hxy⟩
        · exact Or.inl (List.mem_cons_of_mem _ h1)
        · exact Or.inr ⟨y, by simp [List.find?, hz, hy], hxy⟩

/-- Appending a correctly-attributed entry preserves the audit property. -/
lemma rolesOk_append (l : List HistoryEntry) (e : HistoryEntry)
    (hh : ∀ i : Fin l.length,
      (APPROVAL_CHAIN[i.val]?).map StageSpec.role_name = some (l.get i).approver_role)
    (he : (APPROVAL_CHAIN[l.length]?).map StageSpec.role_name = some e.approver_role) :
    ∀ i : Fin (l ++ [e]).length,
      (APPROVAL_CHAIN[i.val]?).map StageSpec.role_name =
        some ((l ++ [e]).get i).approver_role := by
  intro i
  rcases Nat.lt_or_ge i.val l.length with hlt | hge
  · have hg : (l ++ [e]).get i = l.get ⟨i.val, hlt⟩ := by
      simp [List.get_eq_getElem, List.getElem_append_left hlt]
    rw [hg]
    exact hh ⟨i.val, hlt⟩
  · have hi : i.val = l.length := by
      have h2 := i.isLt
      simp only [List.length_append, List.length_cons, List.length_nil] at h2
      omega
    have hg : (l ++ [e]).get i = e := by
      simp only [List.get_eq_getElem]
      exact List.getElem_concat_length l e i.val hi i.isLt
    rw [hg, hi]
    exact he

/-- A successful decision preserves the reachability invariant of the
record it acts on: the guards established by `decide` (pending record,
acting role equal to the routing role) are exactly what is needed. -/
lemma applyDecision_inv (role nm : String) (d : Decision) (cm now : String)
    (r : Requisition) (hInv : Inv r) (hpend : r.final_status = "Pending")
    (hrole : r.current_approver_role = role) :
    Inv (applyDecision APPROVAL_CHAIN role nm d cm now r) := by
  obtain ⟨hp, hh, _, _⟩ := hInv
  obtain ⟨hlen, hcur⟩ := hp hpend
  have hentry : (APPROVAL_CHAIN[r.approval_history.length]?).map StageSpec.role_name
      = some role := by
    rw [← hlen, hcur, hrole]
  have hhist := rolesOk_append r.approval_history
    { approver_role := role, approver_name := nm, date := now,
      status := decisionStatus d, comment := cm } hh hentry
  cases d with
  | Reject =>
    refine ⟨?_, ?_, ?_, ?_⟩
    · intro hfin
      simp only [applyDecision] at hfin
      exact absurd hfin (by decide)
    · intro i
      simpa [applyDecision, histRolesOk, decisionStatus] using hhist i
    · intro hfin
      simp only [applyDecision] at hfin
      exact absurd hfin (by decide)
    · intro _
      simp [applyDecision]
  | Approve =>
    simp only [applyDecision]
    cases hnext : APPROVAL_CHAIN[r.current_approval_stage + 1]? with
    | some nextInfo =>
      dsimp only
      refine ⟨?_, ?_, ?_, ?_⟩
      · intro _
        constructor
        · simp [List.length_append, hlen]
        · simp [hnext]
      · intro i
        exact hhist i
      · intro hfin
        rw [hpend] at hfin
        exact absurd hfin (by decide)
      · intro hfin
        rw [hpend] at hfin
        exact absurd hfin (by decide)
    | none =>
      dsimp only
      refine ⟨?_, ?_, ?_, ?_⟩
      · intro hfin
        exact absurd (show ("Approved" : String) = "Pending" from hfin) (by decide)
      · intro i
        exact hhist i
      · intro _
        rfl
      · intro hfin
        exact absurd (show ("Approved" : String) = "Rejected" from hfin) (by decide)

/-- A decision attempt (successful or not) preserves the invariant of
every record in the store. -/
lemma stepStore_inv (store : List Requisition) (e : DecideEvent)
    (hinv : ∀ x ∈ store, Inv x) : ∀ x ∈ stepStore store e, Inv x := by
  unfold stepStore decideStore
  cases hd : decide APPROVAL_CHAIN store e.user e.rid e.decision e.comment e.date with
  | error _ => exact hinv
  | ok s =>
    obtain ⟨r, role, hr, hpend, _, _, hrole, hs⟩ := decide_ok_elim hd
    intro x hx
    rw [hs] at hx
    rcases mem_updateFirst _ _ _ _ hx with hmem | ⟨y, hy, hxy⟩
    · exact hinv x hmem
    · have hyr : y = r := by
        have : recordOf store e.rid = some y := hy
        rw [hr] at this
        exact ((Option.some.injEq _ _).mp this).symm
      subst hyr hxy
      exact applyDecision_inv role e.user.profile.name e.decision e.comment
        e.date y (hinv y (List.mem_of_find?_eq_some hy)) hpend hrole

/-- A run of decision attempts preserves the invariant of every record. -/
lemma runEvents_inv (es : List DecideEvent) (store : List Requisition)
    (hinv : ∀ x ∈ store, Inv x) : ∀ x ∈ runEvents store es, Inv x := by
  induction es generalizing store with
  | nil => exact hinv
  | cons e es ih => exact ih (stepStore store e) (stepStore_inv store e hinv)

/-- Tracking one record across one decision attempt: the record keeps its
id; if the attempt was a successful decision on this record it becomes the
`applyDecision` image (under the guards `decide` checked), otherwise it is
untouched. -/
lemma stepStore_recordOf (store : List Requisition) (e : DecideEvent)
    (rid : String) (r : Requisition) (hr : recordOf store rid = some r) :
    ∃ r', recordOf (stepStore store e) rid = some r' ∧
      ((decideOk store e && e.rid == rid) = true →
        ∃ role, r.final_status = "Pending" ∧
          chainRoleOf APPROVAL_CHAIN e.user = some role ∧ role ≠ "" ∧
          r.current_approver_role = role ∧
          r' = applyDecision APPROVAL_CHAIN role e.user.profile.name
                 e.decision e.comment e.date r) ∧
      ((decideOk store e && e.rid == rid) = false → r' = r) := by
  unfold stepStore decideStore decideOk
  cases hd : decide APPROVAL_CHAIN store e.user e.rid e.decision e.comment e.date with
  | error err =>
    exact ⟨r, hr, by simp, fun _ => rfl⟩
  | ok s =>
    obtain ⟨r0, role, hr0, hpend, hcr, hne, hrole, hs⟩ := decide_ok_elim hd
    by_cases hid : e.rid = rid
    · subst hid
      have hrr : r0 = r := by
        rw [hr] at hr0
        exact ((Option.some.injEq _ _).mp hr0).symm
      subst hrr
      refine ⟨applyDecision APPROVAL_CHAIN role e.user.profile.name
        e.decision e.comment e.date r0, ?_, ?_, ?_⟩
      · rw [hs]
        exact recordOf_updateFirst_same _
          (fun y => applyDecision_request_id _ _ _ _ _ _ y) store e.rid r0 hr
      · intro _
        exact ⟨role, hpend, hcr, hne, hrole, rfl⟩
      · intro hfalse
        simp at hfalse
    · refine ⟨r, ?_, ?_, fun _ => rfl⟩
      · rw [hs]
        rw [recordOf_updateFirst_other _
          (fun y => applyDecision_request_id _ _ _ _ _ _ y) store rid e.rid hid]
        exact hr
      · intro htrue
        simp at htrue
        exact absurd htrue hid

/-- Tracking one record across a run: its history grows by exactly the
number of successful decisions that targeted it, and it keeps satisfying
the invariant (in particular the history audit property). -/
lemma runEvents_track (es : List DecideEvent) (store : List Requisition)
    (rid : String) (r : Requisition) (hr : recordOf store rid = some r)
    (hinv : ∀ x ∈ store, Inv x) :
    ∃ r', recordOf (runEvents store es) rid = some r' ∧
      r'.approval_history.length =
        r.approval_history.length + countSuccessesFor rid store es ∧
      Inv r' := by
  induction es generalizing store r with
  | nil =>
    exact ⟨r, hr, by simp [countSuccessesFor],
      hinv r (List.mem_of_find?_eq_some hr)⟩
  | cons e es ih =>
    obtain ⟨r1, hr1, htrue, hfalse⟩ := stepStore_recordOf store e rid r hr
    have hinv1 : ∀ x ∈ stepStore store e, Inv x := stepStore_inv store e hinv
    obtain ⟨r', hr', hlen, hinv'⟩ := ih (stepStore store e) r1 hr1 hinv1
    refine ⟨r', hr', ?_, hinv'⟩
    rw [countSuccessesFor]
    cases hc : (decideOk store e && e.rid == rid) with
    | true =>
      obtain ⟨role, _, _, _, _, hr1eq⟩ := htrue hc
      rw [hlen, hr1eq, applyDecision_history]
      simp [List.length_append]
      omega
    | false =>
      rw [hlen, hfalse hc]
      simp

/-- Everything a successful submission implies: the first stage exists and
the produced record is exactly the `new_request` literal of the source. -/
lemma submit_ok_elim {chain : List StageSpec} {users : List User}
    {requester : UserProfile} {inp : SubmitInput} {rid now : String}
    {doc : Option String} {r : Requisition}
    (h : submit chain users requester inp rid now doc = Except.ok r) :
    ∃ first, chain[0]? = some first ∧
      r = { request_id := rid
            requester_staff_id := requester.staff_id
            requester_name := requester.name
            requester_department := requester.department
            request_type := inp.request_type
            item_description := inp.item_description
            expense_line := inp.expense_line
            budgeted_amount := lookupBudget inp.expense_line
            material_cost := inp.material_cost
            labor_cost := inp.labor_cost
            total_amount := inp.material_cost + inp.labor_cost
            wht_percentage := 5 / 100
            wht_amount := (inp.material_cost + inp.labor_cost) * (5 / 100)
            net_amount_payable := (inp.material_cost + inp.labor_cost) -
              (inp.material_cost + inp.labor_cost) * (5 / 100)
            budget_balance := lookupBudget inp.expense_line -
              (inp.material_cost + inp.labor_cost)
            justification := inp.justification
            vendor_name := inp.vendor_name
            vendor_account_name := inp.vendor_account_name
            vendor_account_no := inp.vendor_account_no
            vendor_bank := inp.vendor_bank
            document_path := doc
            submission_date := now
            current_approver_role := first.role_name
            current_approval_stage := 0
            final_status := "Pending"
            approval_history := [] } := by
  unfold submit at h
  cases h0 : chain[0]? with
  | none => rw [h0] at h; exact absurd h (by simp)
  | some first =>
    rw [h0] at h
    dsimp only at h
    cases h1 : get_approver_name_by_criteria users first.department first.grade_level with
    | none => rw [h1] at h; exact absurd h (by simp)
    | some nm =>
      rw [h1] at h
      dsimp only at h
      by_cases h2 : nm = ""
      · rw [if_pos h2] at h; exact absurd h (by simp)
      · rw [if_neg h2] at h
        exact ⟨first, rfl, ((Except.ok.injEq _ _).mp h).symm⟩

/-- A user resolves to the stage-0 role iff the profile matches stage 0
of the chain (Administration / Manager). -/
lemma chainRoleOf_stage0 (u : User) :
    chainRoleOf APPROVAL_CHAIN u = some "Admin Manager" ↔
      u.profile.department = "Administration" ∧
      u.profile.grade_level = "Manager" := by
  obtain ⟨ur, up⟩ := u
  obtain ⟨us, un, ud, ug⟩ := up
  simp only [chainRoleOf, APPROVAL_CHAIN, List.find?]
  split
  · rename_i hb
    simp only [Bool.and_eq_true, beq_iff_eq] at hb
    obtain ⟨h1, h2⟩ := hb
    subst h1
    subst h2
    simp
  · rename_i hb0
    split
    · rename_i hb
      simp only [Bool.and_eq_true, beq_iff_eq] at hb
      obtain ⟨h1, h2⟩ := hb
      subst h1
      subst h2
      simp
    · rename_i hb1
      split
      · rename_i hb
        simp only [Bool.and_eq_true, beq_iff_eq] at hb
        obtain ⟨h1, h2⟩ := hb
        subst h1
        subst h2
        simp
      · rename_i hb2
        split
        · rename_i hb
          simp only [Bool.and_eq_true, beq_iff_eq] at hb
          obtain ⟨h1, h2⟩ := hb
          subst h1
          subst h2
          simp
        · rename_i hb3
          constructor
          · intro h
            simp at h
          · rintro ⟨h1, h2⟩
            subst h1
            subst h2
            simp at hb0

/-- A user resolves to the stage-1 role iff the profile matches stage 1
of the chain (HR / Manager). -/
lemma chainRoleOf_stage1 (u : User) :
    chainRoleOf APPROVAL_CHAIN u = some "HR Manager" ↔
      u.profile.department = "HR" ∧
      u.profile.grade_level = "Manager" := by
  obtain ⟨ur, up⟩ := u
  obtain ⟨us, un, ud, ug⟩ := up
  simp only [chainRoleOf, APPROVAL_CHAIN, List.find?]
  split
  · rename_i hb
    simp only [Bool.and_eq_true, beq_iff_eq] at hb
    obtain ⟨h1, h2⟩ := hb
    subst h1
    subst h2
    simp
  · rename_i hb0
    split
    · rename_i hb
      simp only [Bool.and_eq_true, beq_iff_eq] at hb
      obtain ⟨h1, h2⟩ := hb
      subst h1
      subst h2
      simp
    · rename_i hb1
      split
      · rename_i hb
        simp only [Bool.and_eq_true, beq_iff_eq] at hb
        obtain ⟨h1, h2⟩ := hb
        subst h1
        subst h2
        simp
      · rename_i hb2
        split
        · rename_i hb
          simp only [Bool.and_eq_true, beq_iff_eq] at hb
          obtain ⟨h1, h2⟩ := hb
          subst h1
          subst h2
          simp
        · rename_i hb3
          constructor
          · intro h
            simp at h
          · rintro ⟨h1, h2⟩
            subst h1
            subst h2
            simp at hb1

/-- A user resolves to the stage-2 role iff the profile matches stage 2
of the chain (Finance / Manager). -/
lemma chainRoleOf_stage2 (u : User) :
    chainRoleOf APPROVAL_CHAIN u = some "Finance Manager" ↔
      u.profile.department = "Finance" ∧
      u.profile.grade_level = "Manager" := by
  obtain ⟨ur, up⟩ := u
  obtain ⟨us, un, ud, ug⟩ := up
  simp only [chainRoleOf, APPROVAL_CHAIN, List.find?]
  split
  · rename_i hb
    simp only [Bool.and_eq_true, beq_iff_eq] at hb
    obtain ⟨h1, h2⟩ := hb
    subst h1
    subst h2
    simp
  · rename_i hb0
    split
    · rename_i hb
      simp only [Bool.and_eq_true, beq_iff_eq] at hb
      obtain ⟨h1, h2⟩ := hb
      subst h1
      subst h2
      simp
    · rename_i hb1
      split
      · rename_i hb
        simp only [Bool.and_eq_true, beq_iff_eq] at hb
        obtain ⟨h1, h2⟩ := hb
        subst h1
        subst h2
        simp
      · rename_i hb2
        split
        · rename_i hb
          simp only [Bool.and_eq_true, beq_iff_eq] at hb
          obtain ⟨h1, h2⟩ := hb
          subst h1
          subst h2
          simp
        · rename_i hb3
          constructor
          · intro h
            simp at h
          · rintro ⟨h1, h2⟩
            subst h1
            subst h2
            simp at hb2

/-- A user resolves to the stage-3 role iff the profile matches stage 3
of the chain (Executive / MD). -/
lemma chainRoleOf_stage3 (u : User) :
    chainRoleOf APPROVAL_CHAIN u = some "MD" ↔
      u.profile.department = "Executive" ∧
      u.profile.grade_level = "MD" := by
  obtain ⟨ur, up⟩ := u
  obtain ⟨us, un, ud, ug⟩ := up
  simp only [chainRoleOf, APPROVAL_CHAIN, List.find?]
  split
  · rename_i hb
    simp only [Bool.and_eq_true, beq_iff_eq] at hb
    obtain ⟨h1, h2⟩ := hb
    subst h1
    subst h2
    simp
  · rename_i hb0
    split
    · rename_i hb
      simp only [Bool.and_eq_true, beq_iff_eq] at hb
      obtain ⟨h1, h2⟩ := hb
      subst h1
      subst h2
      simp
    · rename_i hb1
      split
      · rename_i hb
        simp only [Bool.and_eq_true, beq_iff_eq] at hb
        obtain ⟨h1, h2⟩ := hb
        subst h1
        subst h2
        simp
      · rename_i hb2
        split
        · rename_i hb
          simp only [Bool.and_eq_true, beq_iff_eq] at hb
          obtain ⟨h1, h2⟩ := hb
          subst h1
          subst h2
          simp
        · rename_i hb3
          constructor
          · intro h
            simp at h
          · rintro ⟨h1, h2⟩
            subst h1
            subst h2
            simp at hb3

/-- A stage index carrying a stage spec is in range of the 4-stage chain. -/
lemma chain_stage_lt (k : Nat) (spec : StageSpec)
    (hk : APPROVAL_CHAIN[k]? = some spec) : k < 4 := by
  by_contra hge
  push_neg at hge
  rw [List.getElem?_eq_none (by simpa [APPROVAL_CHAIN] using hge)] at hk
  cases hk

/-- A user resolves to the role of stage `k` iff the profile matches stage
`k`'s department and grade level (the chain's four (department, grade)
pairs are distinct, so first-match resolution is exact). -/
lemma chainRoleOf_eq_iff (u : User) (k : Nat) (spec : StageSpec)
    (hk : APPROVAL_CHAIN[k]? = some spec) :
    (chainRoleOf APPROVAL_CHAIN u = some spec.role_name ↔
      u.profile.department = spec.department ∧
      u.profile.grade_level = spec.grade_level) := by
  have hk4 : k < 4 := chain_stage_lt k spec hk
  interval_cases k
  · have hs : spec = ⟨"Admin Manager", "Administration", "Manager"⟩ :=
      ((Option.some.injEq _ _).mp hk).symm
    subst hs
    exact chainRoleOf_stage0 u
  · have hs : spec = ⟨"HR Manager", "HR", "Manager"⟩ :=
      ((Option.some.injEq _ _).mp hk).symm
    subst hs
    exact chainRoleOf_stage1 u
  · have hs : spec = ⟨"Finance Manager", "Finance", "Manager"⟩ :=
      ((Option.some.injEq _ _).mp hk).symm
    subst hs
    exact chainRoleOf_stage2 u
  · have hs : spec = ⟨"MD", "Executive", "MD"⟩ :=
      ((Option.some.injEq _ _).mp hk).symm
    subst hs
    exact chainRoleOf_stage3 u

/-- No stage of the chain has an empty role name. -/
lemma chain_role_nonempty (k : Nat) (spec : StageSpec)
    (hk : APPROVAL_CHAIN[k]? = some spec) : spec.role_name ≠ "" := by
  have hk4 : k < 4 := chain_stage_lt k spec hk
  interval_cases k
  · have hs : spec = ⟨"Admin Manager", "Administration", "Manager"⟩ :=
      ((Option.some.injEq _ _).mp hk).symm
    subst hs
    decide
  · have hs : spec = ⟨"HR Manager", "HR", "Manager"⟩ :=
      ((Option.some.injEq _ _).mp hk).symm
    subst hs
    decide
  · have hs : spec = ⟨"Finance Manager", "Finance", "Manager"⟩ :=
      ((Option.some.injEq _ _).mp hk).symm
    subst hs
    decide
  · have hs : spec = ⟨"MD", "Executive", "MD"⟩ :=
      ((Option.some.injEq _ _).mp hk).symm
    subst hs
    decide

/-! ## Claim theorems -/

/-- C1 counterexample: on the demo submission (material 100000, labor
50000) the code stores `wht_amount = 7500` — 5% of the TOTAL — while
`labor_cost * wht_percentage = 2500`; the two differ, so the withholding
tax is not computed from labor cost only. -/
theorem C1_counterexample :
    submit APPROVAL_CHAIN demoUsers demoRequester demoInput "R1"
      "2025-01-06T09:00:00" none = Except.ok demoReq ∧
    demoReq.wht_amount = 7500 ∧
    demoReq.labor_cost * demoReq.wht_percentage = 2500 ∧
    (7500 : ℚ) ≠ 2500 :=
  ⟨submit_demo, by norm_num [demoReq], by norm_num [demoReq], by norm_num⟩

/-- C1 (amended): for every valid submission the withholding tax is
computed from the TOTAL amount — `wht_amount = total_amount *
wht_percentage`, so the rate is applied to `material_cost` as well as
`labor_cost` (hr_app.py line 1256) — and
`net_amount_payable = total_amount - wht_amount`. -/
theorem C1_wht_on_total_amount (chain : List StageSpec) (users : List User)
    (requester : UserProfile) (inp : SubmitInput) (rid now : String)
    (doc : Option String) (r : Requisition)
    (h : submit chain users requester inp rid now doc = Except.ok r) :
    r.wht_amount = r.total_amount * r.wht_percentage ∧
    r.total_amount = r.material_cost + r.labor_cost ∧
    r.net_amount_payable = r.total_amount - r.wht_amount := by
  obtain ⟨first, _, hr⟩ := submit_ok_elim h
  subst hr
  exact ⟨rfl, rfl, rfl⟩

/-- C1 witness: the amended statement holds on the demo submission. -/
theorem C1_wht_on_total_amount_witness :
    demoReq.wht_amount = demoReq.total_amount * demoReq.wht_percentage ∧
    demoReq.total_amount = demoReq.material_cost + demoReq.labor_cost ∧
    demoReq.net_amount_payable = demoReq.total_amount - demoReq.wht_amount :=
  C1_wht_on_total_amount APPROVAL_CHAIN demoUsers demoRequester demoInput
    "R1" "2025-01-06T09:00:00" none demoReq submit_demo

/-- C2 counterexample: on the demo submission the code stores
`budget_balance = 2350000` (budget minus gross total, hr_app.py line 1259)
while `budgeted_amount - net_amount_payable = 2357500`; the two differ, so
`budget_balance` is not `budgeted_amount - net_amount_payable`. -/
theorem C2_counterexample :
    submit APPROVAL_CHAIN demoUsers demoRequester demoInput "R1"
      "2025-01-06T09:00:00" none = Except.ok demoReq ∧
    demoReq.budget_balance = 2350000 ∧
    demoReq.budgeted_amount - demoReq.net_amount_payable = 2357500 ∧
    (2350000 : ℚ) ≠ 2357500 :=
  ⟨submit_demo, by norm_num [demoReq], by norm_num [demoReq], by norm_num⟩

/-- C2 (amended): for every valid submission `budgeted_amount` is looked
up from the expense-line table at submission time, and `budget_balance`
equals `budgeted_amount - total_amount` (the gross total, not the net
payable — hr_app.py line 1259, "Simplified for now"). -/
theorem C2_budget_balance_uses_total (chain : List StageSpec)
    (users : List User) (requester : UserProfile) (inp : SubmitInput)
    (rid now : String) (doc : Option String) (r : Requisition)
    (h : submit chain users requester inp rid now doc = Except.ok r) :
    r.budgeted_amount = lookupBudget inp.expense_line ∧
    r.budget_balance = r.budgeted_amount - r.total_amount := by
  obtain ⟨first, _, hr⟩ := submit_ok_elim h
  subst hr
  exact ⟨rfl, rfl⟩

/-- C2 witness: the amended statement holds on the demo submission. -/
theorem C2_budget_balance_uses_total_witness :
    demoReq.budgeted_amount = lookupBudget demoInput.expense_line ∧
    demoReq.budget_balance = demoReq.budgeted_amount - demoReq.total_amount :=
  C2_budget_balance_uses_total APPROVAL_CHAIN demoUsers demoRequester
    demoInput "R1" "2025-01-06T09:00:00" none demoReq submit_demo

/-- C9: every requisition created by a successful submission has the
hardcoded withholding rate `wht_percentage = 5/100` (hr_app.py line 1255)
and `total_amount = material_cost + labor_cost`, whatever the submitter
entered — the rate is never selected from a rate set. -/
theorem C9_hardcoded_wht_rate (chain : List StageSpec) (users : List User)
    (requester : UserProfile) (inp : SubmitInput) (rid now : String)
    (doc : Option String) (r : Requisition)
    (h : submit chain users requester inp rid now doc = Except.ok r) :
    r.wht_percentage = 5 / 100 ∧
    r.total_amount = inp.material_cost + inp.labor_cost := by
  obtain ⟨first, _, hr⟩ := submit_ok_elim h
  subst hr
  exact ⟨rfl, rfl⟩

/-- C9 witness: the hardcoded rate and total on the demo submission. -/
theorem C9_hardcoded_wht_rate_witness :
    demoReq.wht_percentage = 5 / 100 ∧
    demoReq.total_amount = demoInput.material_cost + demoInput.labor_cost :=
  C9_hardcoded_wht_rate APPROVAL_CHAIN demoUsers demoRequester demoInput
    "R1" "2025-01-06T09:00:00" none demoReq submit_demo

/-- C3: a successful decision on the record at stage `k` follows the
state-machine table (hr_app.py lines 1439-1475): Reject finalizes as
`Rejected` whatever the stage; Approve with `k+1 < N` advances the stage by
exactly one and leaves the status `Pending`; Approve with `k+1 = N`
finalizes as `Approved` (`N` = chain length). -/
theorem C3_decide_state_machine (chain : List StageSpec)
    (store : List Requisition) (u : User) (rid : String) (d : Decision)
    (cm now : String) (store' : List Requisition) (r : Requisition)
    (hok : decide chain store u rid d cm now = Except.ok store')
    (hr : recordOf store rid = some r) :
    ∃ r', recordOf store' rid = some r' ∧
      (d = Decision.Reject → r'.final_status = "Rejected") ∧
      (d = Decision.Approve → r.current_approval_stage + 1 < chain.length →
        r'.current_approval_stage = r.current_approval_stage + 1 ∧
        r'.final_status = "Pending") ∧
      (d = Decision.Approve → r.current_approval_stage + 1 = chain.length →
        r'.final_status = "Approved") := by
  obtain ⟨r0, role, hr0, hpend, hcr, hne, hrole, hs⟩ := decide_ok_elim hok
  have hrr : r0 = r := by
    rw [hr] at hr0
    exact ((Option.some.injEq _ _).mp hr0).symm
  subst hrr
  refine ⟨applyDecision chain role u.profile.name d cm now r0, ?_, ?_, ?_, ?_⟩
  · rw [hs]
    exact recordOf_updateFirst_same _
      (fun y => applyDecision_request_id _ _ _ _ _ _ y) store rid r0 hr
  · rintro rfl
    rfl
  · rintro rfl hlt
    have hn : chain[r0.current_approval_stage + 1]? =
        some (chain.get ⟨r0.current_approval_stage + 1, hlt⟩) :=
      List.getElem?_eq_getElem hlt
    simp [applyDecision, hn, hpend]
  · rintro rfl heq
    have hn : chain[r0.current_approval_stage + 1]? = none :=
      List.getElem?_eq_none (le_of_eq heq.symm)
    simp only [applyDecision, hn]

/-- The demo record after the Admin Manager's approval: advanced to stage
1, routed to the HR Manager, one history entry. -/
def demoReqStage1 : Requisition :=
  { demoReq with
      current_approver_role := "HR Manager"
      current_approval_stage := 1
      approval_history :=
        [⟨"Admin Manager", "Fatima Bello", "t1", "Approved", "ok"⟩] }

/-- C3 witness: the Admin Manager approves the freshly submitted demo
request; the record advances from stage 0 to stage 1 and stays pending. -/
theorem C3_decide_state_machine_witness :
    ∃ r', recordOf [demoReqStage1] "R1" = some r' ∧
      (Decision.Approve = Decision.Reject → r'.final_status = "Rejected") ∧
      (Decision.Approve = Decision.Approve →
        demoReq.current_approval_stage + 1 < APPROVAL_CHAIN.length →
        r'.current_approval_stage = demoReq.current_approval_stage + 1 ∧
        r'.final_status = "Pending") ∧
      (Decision.Approve = Decision.Approve →
        demoReq.current_approval_stage + 1 = APPROVAL_CHAIN.length →
        r'.final_status = "Approved") :=
  C3_decide_state_machine APPROVAL_CHAIN [demoReq] adminMgrUser "R1"
    Decision.Approve "ok" "t1" [demoReqStage1] demoReq rfl rfl

/-- C4: once a requisition is finalized (`final_status` is `Approved` or
`Rejected`), every decision attempt by any user fails as already finalized
— the record is excluded from every pending list by the
`final_status == 'Pending'` filter (hr_app.py line 1371) — and the store
is left completely unchanged. -/
theorem C4_terminal_immutable (chain : List StageSpec)
    (store : List Requisition) (u : User) (rid : String) (d : Decision)
    (cm now : String) (r : Requisition)
    (hr : recordOf store rid = some r)
    (hfin : r.final_status = "Approved" ∨ r.final_status = "Rejected") :
    decide chain store u rid d cm now =
      Except.error DecideError.AlreadyFinalized ∧
    decideStore chain store u rid d cm now = store := by
  have hnp : ¬ r.final_status = "Pending" := by
    rcases hfin with h | h <;> rw [h] <;> decide
  have h1 : decide chain store u rid d cm now =
      Except.error DecideError.AlreadyFinalized := by
    unfold decide
    rw [hr]
    dsimp only
    rw [if_neg hnp]
  refine ⟨h1, ?_⟩
  unfold decideStore
  rw [h1]

/-- C4 witness: an MD-stage approver attempting to act on the already
approved demo record fails and the store is unchanged. -/
theorem C4_terminal_immutable_witness :
    decide APPROVAL_CHAIN [demoReqApproved] mdUser "R1" Decision.Approve
      "again" "t9" = Except.error DecideError.AlreadyFinalized ∧
    decideStore APPROVAL_CHAIN [demoReqApproved] mdUser "R1" Decision.Approve
      "again" "t9" = [demoReqApproved] :=
  C4_terminal_immutable APPROVAL_CHAIN [demoReqApproved] mdUser "R1"
    Decision.Approve "again" "t9" demoReqApproved rfl (Or.inl rfl)

/-- C6 counterexample: with an empty approval chain, submission raises the
index error from `APPROVAL_CHAIN[0]` (hr_app.py line 1262) and creates no
record at all — it does not finalize the request as `Approved`. -/
theorem C6_counterexample :
    submit [] demoUsers demoRequester demoInput "R1" "t0" none =
      Except.error SubmitError.IndexOutOfRange ∧
    submitStore [] demoUsers [] demoRequester demoInput "R1" "t0" none =
      ([] : List Requisition) :=
  ⟨rfl, rfl⟩

/-- C6 (amended): if the approval chain is empty, submission fails with
the index error raised by the unconditional `APPROVAL_CHAIN[0]` access —
there is no `N == 0` escape hatch finalizing the request as `Approved` —
and the store is unchanged. -/
theorem C6_empty_chain_fails (users : List User) (store : List Requisition)
    (requester : UserProfile) (inp : SubmitInput) (rid now : String)
    (doc : Option String) :
    submit [] users requester inp rid now doc =
      Except.error SubmitError.IndexOutOfRange ∧
    submitStore [] users store requester inp rid now doc = store :=
  ⟨rfl, rfl⟩

/-- C7: when no user in the directory matches the first stage's
(department, grade_level) = (Administration, Manager), submission fails
fast with the no-eligible-approver error (hr_app.py lines 1267-1269) and
the requisition store is unchanged — no record is created or persisted. -/
theorem C7_no_eligible_approver_fail_fast (users : List User)
    (store : List Requisition) (requester : UserProfile) (inp : SubmitInput)
    (rid now : String) (doc : Option String)
    (hnomatch : ∀ u ∈ users, ¬(u.profile.department = "Administration" ∧
      u.profile.grade_level = "Manager")) :
    submit APPROVAL_CHAIN users requester inp rid now doc =
      Except.error SubmitError.NoEligibleApprover ∧
    submitStore APPROVAL_CHAIN users store requester inp rid now doc =
      store := by
  have hfind : get_approver_name_by_criteria users "Administration" "Manager"
      = none := by
    unfold get_approver_name_by_criteria
    rw [List.find?_eq_none.mpr]
    · rfl
    · intro u hu
      simp only [Bool.and_eq_true, beq_iff_eq, not_and]
      intro h1 h2
      exact hnomatch u hu ⟨h1, h2⟩
  have h1 : submit APPROVAL_CHAIN users requester inp rid now doc =
      Except.error SubmitError.NoEligibleApprover := by
    unfold submit
    rw [show APPROVAL_CHAIN[0]? =
      some ⟨"Admin Manager", "Administration", "Manager"⟩ from rfl]
    dsimp only
    rw [hfind]
  refine ⟨h1, ?_⟩
  unfold submitStore
  rw [h1]

/-- C7 witness: with a directory holding only a Marketing officer, the
demo submission fails fast and an empty store stays empty. -/
theorem C7_no_eligible_approver_fail_fast_witness :
    submit APPROVAL_CHAIN [adminOutsider] demoRequester demoInput "R1" "t0"
      none = Except.error SubmitError.NoEligibleApprover ∧
    submitStore APPROVAL_CHAIN [adminOutsider] ([] : List Requisition)
      demoRequester demoInput "R1" "t0" none = ([] : List Requisition) :=
  C7_no_eligible_approver_fail_fast [adminOutsider] [] demoRequester
    demoInput "R1" "t0" none (by decide)

/-- C5 counterexample: the account with the portal's superuser flag
(`role = "admin"`) whose profile is Marketing / Officer cannot act on the
pending demo request at stage 0 — `admin_manage_opex_capex_approvals` has
no superuser bypass (hr_app.py lines 1356-1366), so the decision fails as
unauthorized and the store is unchanged, refuting "a superuser may act at
any stage unconditionally". -/
theorem C5_counterexample :
    adminOutsider.role = "admin" ∧
    demoReq.final_status = "Pending" ∧
    demoReq.current_approval_stage = 0 ∧
    decide APPROVAL_CHAIN [demoReq] adminOutsider "R1" Decision.Approve "x"
      "t1" = Except.error DecideError.Unauthorized ∧
    decideStore APPROVAL_CHAIN [demoReq] adminOutsider "R1" Decision.Approve
      "x" "t1" = [demoReq] :=
  ⟨rfl, rfl, rfl, rfl, rfl⟩

/-- C5 (amended): authorization to act on a pending requisition at stage
`k` is decided solely by the acting user's profile — the decision succeeds
iff the user's department and grade level both equal stage `k`'s
specification, for every user alike: the account-level superuser flag
grants no override. Any user failing the match gets the unauthorized
failure and the store is untouched. -/
theorem C5_authorization_by_profile_only (store : List Requisition)
    (u : User) (rid : String) (d : Decision) (cm now : String)
    (r : Requisition) (spec : StageSpec)
    (hr : recordOf store rid = some r)
    (hpend : r.final_status = "Pending")
    (hstage : APPROVAL_CHAIN[r.current_approval_stage]? = some spec)
    (hroute : r.current_approver_role = spec.role_name) :
    ((∃ s, decide APPROVAL_CHAIN store u rid d cm now = Except.ok s) ↔
      u.profile.department = spec.department ∧
      u.profile.grade_level = spec.grade_level) ∧
    (¬(u.profile.department = spec.department ∧
        u.profile.grade_level = spec.grade_level) →
      decide APPROVAL_CHAIN store u rid d cm now =
        Except.error DecideError.Unauthorized ∧
      decideStore APPROVAL_CHAIN store u rid d cm now = store) := by
  have hne : spec.role_name ≠ "" := chain_role_nonempty _ spec hstage
  have hiff := chainRoleOf_eq_iff u _ spec hstage
  constructor
  · constructor
    · rintro ⟨s, hs⟩
      obtain ⟨r0, role, hr0, _, hcr, _, hrole, _⟩ := decide_ok_elim hs
      have hrr : r0 = r := by
        rw [hr] at hr0
        exact ((Option.some.injEq _ _).mp hr0).symm
      subst hrr
      apply hiff.mp
      rw [← hroute, hrole]
      exact hcr
    · intro hmatch
      have hcr : chainRoleOf APPROVAL_CHAIN u = some spec.role_name :=
        hiff.mpr hmatch
      refine ⟨updateFirst (fun x => x.request_id == rid)
        (applyDecision APPROVAL_CHAIN spec.role_name u.profile.name d cm now)
        store, ?_⟩
      unfold decide
      rw [hr]
      dsimp only
      rw [if_pos hpend, hcr]
      dsimp only
      rw [if_pos (And.intro hne hroute)]
  · intro hnm
    have hcr_ne : chainRoleOf APPROVAL_CHAIN u ≠ some spec.role_name :=
      fun hc => hnm (hiff.mp hc)
    have h1 : decide APPROVAL_CHAIN store u rid d cm now =
        Except.error DecideError.Unauthorized := by
      unfold decide
      rw [hr]
      dsimp only
      rw [if_pos hpend]
      cases hcru : chainRoleOf APPROVAL_CHAIN u with
      | none => rfl
      | some role =>
        dsimp only
        have hng : ¬(role ≠ "" ∧ r.current_approver_role = role) := by
          rintro ⟨_, h_eq⟩
          apply hcr_ne
          rw [hcru]
          rw [← h_eq, hroute]
        rw [if_neg hng]
    refine ⟨h1, ?_⟩
    unfold decideStore
    rw [h1]

/-- C5 witness: for the Administration/Manager user and the pending demo
request at stage 0, the success condition is exactly the profile match. -/
theorem C5_authorization_by_profile_only_witness :
    ((∃ s, decide APPROVAL_CHAIN [demoReq] adminMgrUser "R1"
        Decision.Approve "c" "t1" = Except.ok s) ↔
      adminMgrUser.profile.department = "Administration" ∧
      adminMgrUser.profile.grade_level = "Manager") ∧
    (¬(adminMgrUser.profile.department = "Administration" ∧
        adminMgrUser.profile.grade_level = "Manager") →
      decide APPROVAL_CHAIN [demoReq] adminMgrUser "R1" Decision.Approve "c"
        "t1" = Except.error DecideError.Unauthorized ∧
      decideStore APPROVAL_CHAIN [demoReq] adminMgrUser "R1" Decision.Approve
        "c" "t1" = [demoReq]) :=
  C5_authorization_by_profile_only [demoReq] adminMgrUser "R1"
    Decision.Approve "c" "t1" demoReq
    ⟨"Admin Manager", "Administration", "Manager"⟩ rfl rfl rfl rfl

/-- C8: along any run of decision attempts, a record's history grows by
exactly the number of successful decisions that targeted it (one appended
entry per success, hr_app.py lines 1440-1446 and 1464-1470), and each
history entry's recorded role is the chain's role at the stage index that
was current when that decision was made (entry `i` carries the stage-`i`
role, since the stage index starts at 0 and advances by exactly one per
recorded decision). -/
theorem C8_history_completeness (store : List Requisition)
    (es : List DecideEvent) (rid : String) (r : Requisition)
    (hr : recordOf store rid = some r)
    (hinv : ∀ x ∈ store, Inv x) :
    ∃ r', recordOf (runEvents store es) rid = some r' ∧
      r'.approval_history.length =
        r.approval_history.length + countSuccessesFor rid store es ∧
      histRolesOk r' := by
  obtain ⟨r', h1, h2, h3⟩ := runEvents_track es store rid r hr hinv
  exact ⟨r', h1, h2, h3.2.1⟩

/-- The Admin Manager approves the demo request. -/
def demoEvent1 : DecideEvent :=
  ⟨adminMgrUser, "R1", Decision.Approve, "ok", "t1"⟩

/-- The HR Manager approves the demo request at stage 1. -/
def demoEvent2 : DecideEvent :=
  ⟨hrMgrUser, "R1", Decision.Approve, "fine", "t2"⟩

/-- C8 witness: two successful approvals on the fresh demo record. -/
theorem C8_history_completeness_witness :
    ∃ r', recordOf (runEvents [demoReq] [demoEvent1, demoEvent2]) "R1" =
        some r' ∧
      r'.approval_history.length =
        demoReq.approval_history.length +
          countSuccessesFor "R1" [demoReq] [demoEvent1, demoEvent2] ∧
      histRolesOk r' :=
  C8_history_completeness [demoReq] [demoEvent1, demoEvent2] "R1" demoReq
    rfl (by decide)

/-- C10: in every store reachable from an invariant-satisfying one, the
denormalized `current_approver_role` of a pending record equals the chain
role at its `current_approval_stage` (the two are set together at
submission, lines 1296-1297, and advanced together on approval, lines
1451-1452), the sentinel strings `Final Approval` / `Rejected` are written
on finalization (lines 1456, 1472), and the pending-approvals query
selects requests by comparing this role string with the acting user's
chain role (lines 1369-1372) — never by the stage index. -/
theorem C10_routing_role_denormalization (store : List Requisition)
    (es : List DecideEvent) (u : User) (x : Requisition)
    (hinv : ∀ y ∈ store, Inv y)
    (hx : x ∈ runEvents store es) :
    (x.final_status = "Pending" →
      (APPROVAL_CHAIN[x.current_approval_stage]?).map StageSpec.role_name =
        some x.current_approver_role) ∧
    (x.final_status = "Approved" →
      x.current_approver_role = "Final Approval") ∧
    (x.final_status = "Rejected" → x.current_approver_role = "Rejected") ∧
    (x ∈ pendingForApprover APPROVAL_CHAIN (runEvents store es) u ↔
      x.final_status = "Pending" ∧
      chainRoleOf APPROVAL_CHAIN u = some x.current_approver_role ∧
      x.current_approver_role ≠ "") := by
  obtain ⟨hp, _, ha, hrj⟩ := runEvents_inv es store hinv x hx
  refine ⟨fun h => (hp h).2, ha, hrj, ?_⟩
  unfold pendingForApprover
  cases hc : chainRoleOf APPROVAL_CHAIN u with
  | none =>
    dsimp only
    constructor
    · intro h
      exact absurd h (List.not_mem_nil x)
    · rintro ⟨_, h2, _⟩
      cases h2
  | some role =>
    dsimp only
    by_cases hre : role = ""
    · rw [if_pos hre]
      subst hre
      constructor
      · intro h
        exact absurd h (List.not_mem_nil x)
      · rintro ⟨_, h2, h3⟩
        exact absurd ((Option.some.injEq _ _).mp h2).symm h3
    · rw [if_neg hre]
      constructor
      · intro hmem
        obtain ⟨hmem', hpred⟩ := List.mem_filter.mp hmem
        simp only [Bool.and_eq_true, beq_iff_eq] at hpred
        refine ⟨hpred.2, ?_, ?_⟩
        · rw [hpred.1]
        · rw [hpred.1]
          exact hre
      · rintro ⟨h1, h2, h3⟩
        apply List.mem_filter.mpr
        refine ⟨hx, ?_⟩
        have hxr : x.current_approver_role = role :=
          ((Option.some.injEq _ _).mp h2).symm
        simp [hxr, h1]

/-- C10 witness: the fresh demo store, read by the Administration/Manager
user, before any decision. -/
theorem C10_routing_role_denormalization_witness :
    (demoReq.final_status = "Pending" →
      (APPROVAL_CHAIN[demoReq.current_approval_stage]?).map
        StageSpec.role_name = some demoReq.current_approver_role) ∧
    (demoReq.final_status = "Approved" →
      demoReq.current_approver_role = "Final Approval") ∧
    (demoReq.final_status = "Rejected" →
      demoReq.current_approver_role = "Rejected") ∧
    (demoReq ∈ pendingForApprover APPROVAL_CHAIN (runEvents [demoReq] [])
        adminMgrUser ↔
      demoReq.final_status = "Pending" ∧
      chainRoleOf APPROVAL_CHAIN adminMgrUser =
        some demoReq.current_approver_role ∧
      demoReq.current_approver_role ≠ "") :=
  C10_routing_role_denormalization [demoReq] [] adminMgrUser demoReq
    (by decide) (by simp [runEvents])

end PolarisHR
